import Mathlib

/-!
Verification development for the UDCito RAG backend (`app/core.py`).

The pipeline functions of `core.py` are shallowly embedded as pure Lean
functions.  Every external collaborator (the Chroma retriever handle, the
Chroma text search, the chat LLM client and the MultiQuery retriever) is a
blocking call that may raise; each is modelled as an explicit oracle
parameter returning `Except Err _`, and the Python `try/except` blocks are
translated as matches on the oracle results.
-/

/-- Document model: a langchain document as used by `core.py`, with its text
content and its metadata mapping (modelled as an association list). -/
structure Document where
  page_content : String
  metadata : List (String × String)
deriving DecidableEq, Repr

/-- One conversation turn, as the dicts built in `main.py` and consumed by
`consultar_llm`: a role string and a content string. -/
structure ChatMessage where
  role : String
  content : String
deriving DecidableEq, Repr

/-- The langchain message kinds used by `core.py`: `SystemMessage`,
`HumanMessage` and `AIMessage`. -/
inductive Message where
  | system (content : String)
  | human (content : String)
  | ai (content : String)
deriving DecidableEq, Repr

/-- Error detail carried by a raised provider exception (the `str(e)` text). -/
abbrev Err := String

/-- Oracle for `llm.invoke`: sends a message list, may fail; on success the
response content string is returned. -/
abbrev LLMOracle := List Message → Except Err String

/-- Oracle for `retriever.invoke` and for the opaque
`multiquery_retriever.get_relevant_documents` call: a query string in,
documents out, may fail. -/
abbrev RetrieverOracle := String → Except Err (List Document)

/-- Oracle for `db.similarity_search(query, k)`. -/
abbrev SearchOracle := String → Nat → Except Err (List Document)

/-! ### Deduplication (the dict comprehension of core.py lines 300 and 367)

`{doc.page_content: doc for doc in docs}.values()` builds an
insertion-ordered map: a repeated key keeps its original position but its
value is overwritten by the later document.  `dictInsert` performs one such
insertion step. -/

/-- Overwrite step of the dict comprehension: every entry whose key equals
the new document's content has its value replaced by the new document. -/
def contentUpdate (acc : List Document) (d : Document) : List Document :=
  acc.map (fun e => if e.page_content = d.page_content then d else e)

/-- One insertion into the insertion-ordered map of the dict comprehension:
a present key is overwritten in place, an absent key is appended. -/
def dictInsert (acc : List Document) (d : Document) : List Document :=
  if d.page_content ∈ acc.map (·.page_content) then contentUpdate acc d
  else acc ++ [d]

/-- Embeds `list({doc.page_content: doc for doc in docs}.values())` from
`recuperar_documentos_hibrido` (line 300) and
`recuperar_documentos_multiquery` (line 367). -/
def dedupe (docs : List Document) : List Document :=
  docs.foldl dictInsert []

/-- Content keys in order of first occurrence; the reference order against
which the dedup output is compared. -/
def firstDedup (l : List String) : List String :=
  l.foldl (fun acc c => if c ∈ acc then acc else acc ++ [c]) []

theorem contentUpdate_keys (acc : List Document) (d : Document) :
    (contentUpdate acc d).map (·.page_content) = acc.map (·.page_content) := by
  induction acc with
  | nil => rfl
  | cons e rest ih =>
    simp only [contentUpdate, List.map_cons] at *
    by_cases h : e.page_content = d.page_content
    · simp [h, ih]
    · simp [h, ih]

theorem dictInsert_keys (acc : List Document) (d : Document) :
    (dictInsert acc d).map (·.page_content) =
      if d.page_content ∈ acc.map (·.page_content) then acc.map (·.page_content)
      else acc.map (·.page_content) ++ [d.page_content] := by
  unfold dictInsert
  by_cases h : d.page_content ∈ acc.map (·.page_content)
  · simp [h, contentUpdate_keys]
  · simp [h]

theorem dedupe_go_keys (l : List Document) :
    ∀ acc : List Document,
      ((l.foldl dictInsert acc).map (·.page_content)) =
        (l.map (·.page_content)).foldl
          (fun ks c => if c ∈ ks then ks else ks ++ [c]) (acc.map (·.page_content)) := by
  induction l with
  | nil => intro acc; rfl
  | cons d rest ih =>
    intro acc
    simp only [List.foldl_cons, List.map_cons]
    rw [ih, dictInsert_keys]

theorem dedupe_keys (docs : List Document) :
    (dedupe docs).map (·.page_content) = firstDedup (docs.map (·.page_content)) := by
  simpa [dedupe, firstDedup] using dedupe_go_keys docs []

theorem firstDedup_go_nodup (l : List String) :
    ∀ acc : List String, acc.Nodup →
      (l.foldl (fun ks c => if c ∈ ks then ks else ks ++ [c]) acc).Nodup := by
  induction l with
  | nil => intro acc h; exact h
  | cons c rest ih =>
    intro acc h
    simp only [List.foldl_cons]
    by_cases hc : c ∈ acc
    · simpa [hc] using ih acc h
    · have : (acc ++ [c]).Nodup := by
        simp [List.nodup_append, h, hc]
      simpa [hc] using ih (acc ++ [c]) this

theorem dedupe_keys_nodup (docs : List Document) :
    ((dedupe docs).map (·.page_content)).Nodup := by
  rw [dedupe_keys]
  exact firstDedup_go_nodup _ [] List.nodup_nil

theorem dedupe_go_of_nodup (l : List Document) :
    ∀ acc : List Document, (((acc ++ l).map (·.page_content))).Nodup →
      l.foldl dictInsert acc = acc ++ l := by
  induction l with
  | nil => intro acc _; simp
  | cons x rest ih =>
    intro acc h
    have hx : x.page_content ∉ acc.map (·.page_content) := by
      have h2 := h
      rw [List.map_append, List.map_cons, List.nodup_append] at h2
      intro hmem
      exact h2.2.2 hmem (by simp)
    simp only [List.foldl_cons]
    rw [show dictInsert acc x = acc ++ [x] by simp [dictInsert, hx]]
    have h' : (((acc ++ [x]) ++ rest).map (·.page_content)).Nodup := by
      simpa [List.append_assoc] using h
    rw [ih (acc ++ [x]) h']
    simp

/-- Helper: the last element of `l ++ [a]` is `a`. -/
theorem getLast?_append_singleton {α : Type} (l : List α) (a : α) :
    (l ++ [a]).getLast? = some a := by
  induction l with
  | nil => rfl
  | cons x rest ih =>
    rw [List.cons_append, List.getLast?_cons, ih]
    cases rest <;> simp_all

theorem dedupe_go_last (l : List Document) :
    ∀ (processed acc : List Document),
      (∀ d ∈ acc,
        (processed.filter (fun e => e.page_content == d.page_content)).getLast? = some d) →
      ∀ d ∈ l.foldl dictInsert acc,
        ((processed ++ l).filter (fun e => e.page_content == d.page_content)).getLast?
          = some d := by
  induction l with
  | nil => intro processed acc h d hd; simpa using h d hd
  | cons xdoc rest ih =>
    intro processed acc h d hd
    simp only [List.foldl_cons] at hd
    have step : ∀ w ∈ dictInsert acc xdoc,
        ((processed ++ [xdoc]).filter (fun e => e.page_content == w.page_content)).getLast?
          = some w := by
      intro w hw
      by_cases hmem : xdoc.page_content ∈ acc.map (·.page_content)
      · rw [dictInsert, if_pos hmem] at hw
        obtain ⟨e, he, hwe⟩ := List.mem_map.mp hw
        by_cases hk : e.page_content = xdoc.page_content
        · rw [if_pos hk] at hwe
          subst hwe
          have hfil : ((processed ++ [xdoc]).filter
              (fun e₁ => e₁.page_content == xdoc.page_content))
              = (processed.filter (fun e₁ => e₁.page_content == xdoc.page_content))
                  ++ [xdoc] := by
            simp [List.filter_append]
          rw [hfil, getLast?_append_singleton]
        · rw [if_neg hk] at hwe
          subst hwe
          have hxne : (xdoc.page_content == e.page_content) = false := by
            simp [Ne.symm hk]
          have hfil : ((processed ++ [xdoc]).filter
              (fun e₁ => e₁.page_content == e.page_content))
              = processed.filter (fun e₁ => e₁.page_content == e.page_content) := by
            simp [List.filter_append, hxne]
          rw [hfil]
          exact h e he
      · rw [dictInsert, if_neg hmem] at hw
        rcases List.mem_append.mp hw with hin | hxw
        · have hne : xdoc.page_content ≠ w.page_content := by
            intro hEq
            exact hmem (hEq ▸ List.mem_map_of_mem (·.page_content) hin)
          have hfil : ((processed ++ [xdoc]).filter
              (fun e₁ => e₁.page_content == w.page_content))
              = processed.filter (fun e₁ => e₁.page_content == w.page_content) := by
            simp [List.filter_append, hne]
          rw [hfil]
          exact h w hin
        · have hw' : w = xdoc := by simpa using hxw
          subst hw'
          have hfil : ((processed ++ [w]).filter
              (fun e₁ => e₁.page_content == w.page_content))
              = (processed.filter (fun e₁ => e₁.page_content == w.page_content)) ++ [w] := by
            simp [List.filter_append]
          rw [hfil, getLast?_append_singleton]
    have := ih (processed ++ [xdoc]) (dictInsert acc xdoc) step d hd
    simpa [List.append_assoc] using this

theorem dedupe_last_instance (l : List Document) :
    ∀ d ∈ dedupe l,
      (l.filter (fun e => e.page_content == d.page_content)).getLast? = some d := by
  intro d hd
  have := dedupe_go_last l [] [] (by intro d₀ h₀; cases h₀) d hd
  simpa using this

/-! ### consultar_llm (core.py lines 188-236) -/

/-- Fixed system instruction of `consultar_llm`, with the context block
interpolated at the end exactly as the Python f-string does. -/
def systemInstruction (context : String) : String :=
  "Eres un Chatbot asistente de la Universidad del Chubut. Responde usando solo la información del siguiente contexto, teniendo en cuenta tambien el historial de conversacion. Usa un tono formal y profesional. No inventes información y responde solo con datos verificados. Si la información no es suficiente, indícalo. Contexto: " ++ context

/-- Embeds the context assembly of line 202:
`"\n".join([doc.page_content for doc in context_docs])`. -/
def contextOf (docs : List Document) : String :=
  String.intercalate "\n" (docs.map (·.page_content))

/-- Embeds the history loop of lines 218-222: a `user` turn becomes a
`HumanMessage`, an `assistant` turn an `AIMessage`, any other role is
skipped. -/
def historyToMessages : List ChatMessage → List Message
  | [] => []
  | m :: rest =>
    if m.role = "user" then Message.human m.content :: historyToMessages rest
    else if m.role = "assistant" then Message.ai m.content :: historyToMessages rest
    else historyToMessages rest

/-- The full message list `consultar_llm` sends to `llm.invoke`: system
message, converted history, then the current question as a final human
message (lines 205-225). -/
def buildMessages (docs : List Document) (question : String)
    (history : List ChatMessage) : List Message :=
  Message.system (systemInstruction (contextOf docs))
    :: (historyToMessages history ++ [Message.human question])

/-- Embeds `consultar_llm` (lines 188-236): on provider success the
completion content is returned verbatim, on any failure the apology string
embedding `str(e)` is returned — nothing is raised. -/
def consultar_llm (llm : LLMOracle) (context_docs : List Document)
    (question : String) (history : List ChatMessage) : String :=
  match llm (buildMessages context_docs question history) with
  | Except.ok response => response
  | Except.error e => "Lo siento, ocurrió un error: " ++ e

/-! ### reformular_pregunta (core.py lines 251-265) -/

/-- Python slice `l[-3:]`: the last `n` elements (all of them when fewer). -/
def lastN {α : Type} (n : Nat) (l : List α) : List α :=
  l.drop (l.length - n)

/-- Rendering of `f"Historial: \x7bhistory[-3:]\x7d"`. The Python code
interpolates the `str()` of the sliced list; the exact textual rendering is
provider-facing only and affects no property proved in this file, so a
fixed injective-enough encoding is used. -/
def formatHistory (l : List ChatMessage) : String :=
  String.intercalate ", " (l.map (fun m => m.role ++ ": " ++ m.content))

/-- The three messages `reformular_pregunta` sends to `llm.invoke`
(lines 254-258). -/
def reformMessages (history : List ChatMessage) (question : String) :
    List Message :=
  [Message.system "Reformula la pregunta del humano teniendo en cuenta el contexto y el historial, tu respuesta se utilizara para recuperar informacion de la base vectorial y contestar la pregunta del humano.",
   Message.human ("Historial: " ++ formatHistory (lastN 3 history)),
   Message.human ("Pregunta: " ++ question)]

/-- Embeds `reformular_pregunta` (lines 251-265): on success the rewritten
text, on any provider failure the original question. -/
def reformular_pregunta (llm : LLMOracle) (history : List ChatMessage)
    (question : String) : String :=
  match llm (reformMessages history question) with
  | Except.ok r => r
  | Except.error _ => question

/-! ### reordenar_documentos (core.py lines 267-282) -/

/-- The messages of the per-document relevance call in
`reordenar_documentos` (lines 272-276). -/
def rerankMessages (query : String) (doc : Document) : List Message :=
  [Message.system "Evalúa la relevancia del documento.",
   Message.human ("Consulta: " ++ query),
   Message.human ("Documento: " ++ doc.page_content)]

/-- CPython `sorted(..., key=..)` first computes every key, so the first
raising key call aborts the whole sort; `rerankKeys` models that key pass,
failing with the first provider error. -/
def rerankKeys (llm : LLMOracle) (query : String) :
    List Document → Except Err (List String)
  | [] => Except.ok []
  | d :: rest =>
    match llm (rerankMessages query d) with
    | Except.error e => Except.error e
    | Except.ok k =>
      match rerankKeys llm query rest with
      | Except.error e => Except.error e
      | Except.ok ks => Except.ok (k :: ks)

/-- Stable insertion for a descending sort on the string key, matching
Python `sorted(..., reverse=True)` (stable, equal keys keep input order). -/
def insertDesc (x : Document × String) :
    List (Document × String) → List (Document × String)
  | [] => [x]
  | y :: ys => if x.2 < y.2 then y :: insertDesc x ys else x :: y :: ys

/-- Stable descending sort by key, built from `insertDesc`. -/
def sortDescByKey (l : List (Document × String)) : List (Document × String) :=
  l.foldr insertDesc []

/-- Embeds `reordenar_documentos` (lines 267-282): ranks every document by
an LLM relevance judgment and sorts descending; on any failure the original
input order is returned. -/
def reordenar_documentos (llm : LLMOracle) (query : String)
    (documentos : List Document) : List Document :=
  match rerankKeys llm query documentos with
  | Except.ok keys => (sortDescByKey (documentos.zip keys)).map (·.1)
  | Except.error _ => documentos

/-! ### recuperar_documentos_hibrido (core.py lines 284-305) -/

/-- Embeds line 288: `" ".join([msg.content for msg in history[-3:]]) if
history else ""`. -/
def historialCompleto (history : List ChatMessage) : String :=
  if history.isEmpty then ""
  else String.intercalate " " ((lastN 3 history).map (·.content))

/-- Characters with the leading and trailing whitespace runs removed, the
effect of Python `str.strip()` on the character sequence. -/
def stripChars (l : List Char) : List Char :=
  ((l.dropWhile Char.isWhitespace).reverse.dropWhile Char.isWhitespace).reverse

/-- Model of Python `str.strip()`: drop whitespace from both ends. -/
def pyStrip (s : String) : String :=
  String.mk (stripChars s.data)

/-- Embeds line 291: `f"\x7bhistorial_completo\x7d \x7bquery\x7d".strip()`. -/
def consulta_enriquecida (query : String) (history : List ChatMessage) : String :=
  pyStrip (historialCompleto history ++ " " ++ query)

/-- Embeds `recuperar_documentos_hibrido` (lines 284-305): a similarity
retrieval and a `k = 5` search against the same enriched query, their
concatenation deduplicated; any provider/store failure yields `[]`. -/
def recuperar_documentos_hibrido (ret : RetrieverOracle) (dbs : SearchOracle)
    (query : String) (history : List ChatMessage) : List Document :=
  match ret (consulta_enriquecida query history) with
  | Except.error _ => []
  | Except.ok documentos_semanticos =>
    match dbs (consulta_enriquecida query history) 5 with
    | Except.error _ => []
    | Except.ok documentos_texto =>
      dedupe (documentos_semanticos ++ documentos_texto)

/-! ### multiquery, direct retrieval and the orchestrator -/

/-- Embeds `recuperar_documentos_multiquery` (lines 339-373). The
`MultiQueryRetriever.get_relevant_documents` call is third-party library
code and is modelled as one opaque retrieval oracle call; its result is
deduplicated by content, any failure yields `[]`. The `history` parameter
is accepted and ignored, as in the source. -/
def recuperar_documentos_multiquery (mq : RetrieverOracle) (query : String)
    (history : List ChatMessage) : List Document :=
  match mq query with
  | Except.ok docs => dedupe docs
  | Except.error _ => []

/-- Embeds the earlier one-parameter `recuperar_documentos` (lines 169-186):
a direct retrieval, `[]` on failure. In the loaded module this binding is
shadowed by the two-parameter definition below. -/
def recuperar_documentos_v1 (ret : RetrieverOracle) (query : String) :
    List Document :=
  match ret query with
  | Except.ok docs => docs
  | Except.error _ => []

/-- Embeds the surviving two-parameter `recuperar_documentos`
(lines 312-333): reformulate, then multiquery retrieval. Its own
`try/except` wrapper is unreachable because both callees absorb their
provider failures internally, so the body is translated directly. -/
def recuperar_documentos (llm : LLMOracle) (mq : RetrieverOracle)
    (query : String) (history : List ChatMessage) : List Document :=
  recuperar_documentos_multiquery mq (reformular_pregunta llm history query) history

/-! ### History ownership: state-passing forms

The source performs only reads on the caller-owned `history` list (slicing
`history[-3:]`, iteration, interpolation); no statement assigns into it or
calls a mutating method.  The state-passing forms below make that explicit:
each returns the history alongside its result, and the returned history is
the received one. -/

/-- State-passing form of `reformular_pregunta`. -/
def reformular_pregunta_st (llm : LLMOracle) (history : List ChatMessage)
    (question : String) : String × List ChatMessage :=
  (reformular_pregunta llm history question, history)

/-- State-passing form of `recuperar_documentos_hibrido`. -/
def recuperar_documentos_hibrido_st (ret : RetrieverOracle) (dbs : SearchOracle)
    (query : String) (history : List ChatMessage) :
    List Document × List ChatMessage :=
  (recuperar_documentos_hibrido ret dbs query history, history)

/-- State-passing form of the two-parameter `recuperar_documentos`. -/
def recuperar_documentos_st (llm : LLMOracle) (mq : RetrieverOracle)
    (query : String) (history : List ChatMessage) :
    List Document × List ChatMessage :=
  (recuperar_documentos llm mq query history, history)

/-- State-passing form of `consultar_llm`. -/
def consultar_llm_st (llm : LLMOracle) (context_docs : List Document)
    (question : String) (history : List ChatMessage) :
    String × List ChatMessage :=
  (consultar_llm llm context_docs question history, history)

/-- Per-turn translation used to restate the history loop of
`consultar_llm` as a `filterMap`. -/
def roleToMessage (m : ChatMessage) : Option Message :=
  if m.role = "user" then some (Message.human m.content)
  else if m.role = "assistant" then some (Message.ai m.content)
  else none

/-- Follows the spec text for the hybrid enrichment, for comparison with
`consulta_enriquecida`: prefix the query with the last-3 history contents
joined by single spaces; empty prefix when history is empty.  (The spec
wording has no final strip.) -/
def enrichedQuerySpec (query : String) (history : List ChatMessage) : String :=
  if history.isEmpty then query
  else String.intercalate " " ((lastN 3 history).map (·.content)) ++ " " ++ query

/-! ### The module namespace of core.py (for the shadowing claim)

Python executes `def` statements in order and each rebinds its name in the
module dict; `from app.core import recuperar_documentos` then resolves to
the last binding.  Only the pipeline functions are listed: the
configuration/startup functions of lines 43-167 bind other names and cannot
affect the resolution of `recuperar_documentos`. -/

/-- A module-level function value, tagged by its Python signature. -/
inductive PyValue where
  | fun1 (f : String → List Document)
  | fun2 (f : String → List ChatMessage → List Document)
  | fun3 (f : List Document → String → List ChatMessage → String)
  | funRef (f : List ChatMessage → String → String)
  | funRank (f : String → List Document → List Document)

/-- The pipeline `def` statements of `core.py` in source order, with the
name each one binds. -/
def coreModuleBindings (llm : LLMOracle) (ret mq : RetrieverOracle)
    (dbs : SearchOracle) : List (String × PyValue) :=
  [("recuperar_documentos", PyValue.fun1 (recuperar_documentos_v1 ret)),
   ("consultar_llm", PyValue.fun3 (consultar_llm llm)),
   ("reformular_pregunta", PyValue.funRef (reformular_pregunta llm)),
   ("reordenar_documentos", PyValue.funRank (reordenar_documentos llm)),
   ("recuperar_documentos_hibrido", PyValue.fun2 (recuperar_documentos_hibrido ret dbs)),
   ("recuperar_documentos", PyValue.fun2 (recuperar_documentos llm mq)),
   ("recuperar_documentos_multiquery", PyValue.fun2 (recuperar_documentos_multiquery mq))]

/-- Sequential execution of the `def` statements: a later binding of the
same name overwrites the earlier one. -/
def resolve (env : List (String × PyValue)) (name : String) : Option PyValue :=
  env.foldl (fun acc b => if b.1 = name then some b.2 else acc) none

/-- Python call with a single positional string argument: a one-parameter
function is applied; any function with further required positional
parameters raises `TypeError` instead. -/
def callWithOneStringArg : PyValue → String → Except Err (List Document)
  | PyValue.fun1 f, q => Except.ok (f q)
  | _, _ => Except.error "TypeError: missing required positional argument"

/-! ### Claim theorems -/

/-- C8 (confirmed): deduplication is idempotent — applying the
content-keyed dedup of core.py to its own output returns the same
sequence. -/
theorem dedupe_idempotent (D : List Document) : dedupe (dedupe D) = dedupe D := by
  have h := dedupe_keys_nodup D
  have h2 := dedupe_go_of_nodup (dedupe D) [] (by simpa using h)
  simpa [dedupe] using h2

/-- C1 (corrected): `dedupe (D1 ++ D2)` lists each distinct content exactly
once, in order of first occurrence — but the kept element for a duplicated
content is the last-encountered instance (the one from `D2` when both
contain it), not the first: the dict comprehension overwrites the value at
the first occurrence's position. -/
theorem dedupe_append_first_order_last_instance (D1 D2 : List Document) :
    ((dedupe (D1 ++ D2)).map (·.page_content)
        = firstDedup ((D1 ++ D2).map (·.page_content)))
    ∧ ((dedupe (D1 ++ D2)).map (·.page_content)).Nodup
    ∧ (∀ d ∈ dedupe (D1 ++ D2),
        ((D1 ++ D2).filter (fun e => e.page_content == d.page_content)).getLast?
          = some d) :=
  ⟨dedupe_keys _, dedupe_keys_nodup _, fun d hd => dedupe_last_instance _ d hd⟩

/-- Witness for C1: on a concrete overlapping pair the kept element is the
`D2` instance, found as the last input element with that content. -/
theorem dedupe_append_first_order_last_instance_witness :
    ((dedupe (([⟨"c", [("src", "1")]⟩] : List Document)
        ++ ([⟨"c", [("src", "2")]⟩, ⟨"d", []⟩] : List Document))).map
        (·.page_content)).Nodup
    ∧ ((([⟨"c", [("src", "1")]⟩] : List Document)
        ++ ([⟨"c", [("src", "2")]⟩, ⟨"d", []⟩] : List Document)).filter
        (fun e => e.page_content == (⟨"c", [("src", "2")]⟩ : Document).page_content)).getLast?
        = some ⟨"c", [("src", "2")]⟩ := by
  have h := dedupe_append_first_order_last_instance
    ([⟨"c", [("src", "1")]⟩] : List Document)
    ([⟨"c", [("src", "2")]⟩, ⟨"d", []⟩] : List Document)
  exact ⟨h.2.1, h.2.2 ⟨"c", [("src", "2")]⟩ (by decide)⟩

/-- Counterexample for C1 as stated: with the same content in both inputs,
dedup keeps the `D2` instance (metadata `src=2`), not the first-encountered
`D1` instance. -/
theorem dedupe_keeps_last_metadata_counterexample :
    dedupe ([(⟨"c", [("src", "1")]⟩ : Document)] ++ [⟨"c", [("src", "2")]⟩])
      = [⟨"c", [("src", "2")]⟩]
    ∧ (⟨"c", [("src", "2")]⟩ : Document) ≠ ⟨"c", [("src", "1")]⟩ := by
  exact ⟨by decide, by decide⟩

theorem historyToMessages_eq_filterMap (h : List ChatMessage) :
    historyToMessages h = h.filterMap roleToMessage := by
  induction h with
  | nil => rfl
  | cons m rest ih =>
    by_cases hu : m.role = "user"
    · simp [historyToMessages, roleToMessage, hu, ih]
    · by_cases ha : m.role = "assistant"
      · simp [historyToMessages, roleToMessage, hu, ha, ih]
      · simp [historyToMessages, roleToMessage, hu, ha, ih]

theorem historyToMessages_length (h : List ChatMessage) :
    (historyToMessages h).length
      = (h.filter (fun m => m.role == "user" || m.role == "assistant")).length := by
  induction h with
  | nil => rfl
  | cons m rest ih =>
    by_cases hu : m.role = "user"
    · simp [historyToMessages, hu, ih]
    · by_cases ha : m.role = "assistant"
      · simp [historyToMessages, hu, ha, ih]
      · simp [historyToMessages, hu, ha, ih]

/-- C3 (confirmed): the message list `consultar_llm` sends is one system
message embedding the newline-joined document contents, one message per
`user`/`assistant` history entry in order (other roles skipped), and one
final user message with the question; its length is `|filtered history|
+ 2`. -/
theorem consultar_llm_message_structure (llm : LLMOracle) (docs : List Document)
    (q : String) (h : List ChatMessage) :
    consultar_llm llm docs q h
      = (match llm (buildMessages docs q h) with
         | Except.ok r => r
         | Except.error e => "Lo siento, ocurrió un error: " ++ e)
    ∧ buildMessages docs q h
      = Message.system
            (systemInstruction (String.intercalate "\n" (docs.map (·.page_content))))
          :: (h.filterMap roleToMessage ++ [Message.human q])
    ∧ (buildMessages docs q h).length
      = (h.filter (fun m => m.role == "user" || m.role == "assistant")).length + 2 := by
  refine ⟨rfl, ?_, ?_⟩
  · simp [buildMessages, contextOf, historyToMessages_eq_filterMap]
  · simp [buildMessages, historyToMessages_length]

/-- C7 (confirmed): `consultar_llm` is total — on provider success it
returns the completion verbatim, on provider failure it returns the apology
string embedding the raw error detail. -/
theorem consultar_llm_error_handling (llm : LLMOracle) (docs : List Document)
    (q : String) (h : List ChatMessage) :
    (∀ r, llm (buildMessages docs q h) = Except.ok r →
        consultar_llm llm docs q h = r)
    ∧ (∀ e, llm (buildMessages docs q h) = Except.error e →
        consultar_llm llm docs q h = "Lo siento, ocurrió un error: " ++ e) := by
  constructor
  · intro r hr; simp [consultar_llm, hr]
  · intro e he; simp [consultar_llm, he]

/-- Witness for C7: both branches at concrete oracles. -/
theorem consultar_llm_error_handling_witness :
    consultar_llm (fun _ => Except.ok "hola") [] "q" [] = "hola"
    ∧ consultar_llm (fun _ => Except.error "falla") [] "q" []
        = "Lo siento, ocurrió un error: falla" := by
  constructor
  · exact (consultar_llm_error_handling (fun _ => Except.ok "hola") [] "q" []).1 "hola" rfl
  · exact (consultar_llm_error_handling (fun _ => Except.error "falla") [] "q" []).2
      "falla" rfl

/-- C4 (confirmed): when every chat-completion call fails,
`reformular_pregunta` returns the original question unchanged and does not
raise. -/
theorem reformular_pregunta_fallback (llm : LLMOracle)
    (hfail : ∀ msgs, ∃ e, llm msgs = Except.error e) :
    ∀ (h : List ChatMessage) (q : String), reformular_pregunta llm h q = q := by
  intro h q
  obtain ⟨e, he⟩ := hfail (reformMessages h q)
  simp [reformular_pregunta, he]

/-- Witness for C4: an always-failing provider at a concrete history and
question. -/
theorem reformular_pregunta_fallback_witness :
    reformular_pregunta (fun _ => Except.error "caida") [⟨"user", "hola"⟩]
      "pregunta original" = "pregunta original" :=
  reformular_pregunta_fallback (fun _ => Except.error "caida")
    (fun _ => ⟨"caida", rfl⟩) [⟨"user", "hola"⟩] "pregunta original"

theorem rerankKeys_error_of_mem (llm : LLMOracle) (q : String) (l : List Document) :
    (∃ d ∈ l, ∃ e, llm (rerankMessages q d) = Except.error e) →
    ∃ e, rerankKeys llm q l = Except.error e := by
  induction l with
  | nil => rintro ⟨d, hd, _⟩; cases hd
  | cons x rest ih =>
    rintro ⟨d, hd, e, he⟩
    cases hx : llm (rerankMessages q x) with
    | error e₁ => exact ⟨e₁, by simp [rerankKeys, hx]⟩
    | ok k =>
      rcases List.mem_cons.mp hd with rfl | hd'
      · rw [he] at hx; cases hx
      · obtain ⟨e₂, h₂⟩ := ih ⟨d, hd', e, he⟩
        exact ⟨e₂, by simp [rerankKeys, hx, h₂]⟩

/-- C5 (confirmed): if any chat-completion call made while ranking the
documents fails, `reordenar_documentos` returns the input sequence
unchanged — same elements, same order — and does not raise. -/
theorem reordenar_documentos_fallback (llm : LLMOracle) (q : String)
    (D : List Document)
    (hfail : ∃ d ∈ D, ∃ e, llm (rerankMessages q d) = Except.error e) :
    reordenar_documentos llm q D = D := by
  obtain ⟨e, he⟩ := rerankKeys_error_of_mem llm q D hfail
  simp [reordenar_documentos, he]

/-- Witness for C5: an always-failing provider on a one-document input. -/
theorem reordenar_documentos_fallback_witness :
    reordenar_documentos (fun _ => Except.error "caida2") "consulta"
      [⟨"doc", []⟩] = [⟨"doc", []⟩] :=
  reordenar_documentos_fallback (fun _ => Except.error "caida2") "consulta"
    [⟨"doc", []⟩] ⟨⟨"doc", []⟩, List.mem_singleton_self _, "caida2", rfl⟩

/-- C2 (corrected, amended part): the orchestrator never raises and equals
the multiquery strategy applied to the reformulated question; it returns
`[]` when the multiquery retrieval call fails; and each of the three
retrieval strategies returns `[]` on any provider/store error arising
inside that strategy.  (A failing reformulation call alone does not empty
the result — see the counterexample.) -/
theorem retrieval_failure_policy_amended (llm : LLMOracle)
    (mq ret : RetrieverOracle) (dbs : SearchOracle) (q : String)
    (h : List ChatMessage) :
    recuperar_documentos llm mq q h
      = recuperar_documentos_multiquery mq (reformular_pregunta llm h q) h
    ∧ (∀ e, mq (reformular_pregunta llm h q) = Except.error e →
        recuperar_documentos llm mq q h = [])
    ∧ (∀ e, mq q = Except.error e →
        recuperar_documentos_multiquery mq q h = [])
    ∧ (∀ e, ret (consulta_enriquecida q h) = Except.error e →
        recuperar_documentos_hibrido ret dbs q h = [])
    ∧ (∀ sem, ret (consulta_enriquecida q h) = Except.ok sem →
        ∀ e, dbs (consulta_enriquecida q h) 5 = Except.error e →
          recuperar_documentos_hibrido ret dbs q h = [])
    ∧ (∀ e, ret q = Except.error e → recuperar_documentos_v1 ret q = []) := by
  refine ⟨rfl, ?_, ?_, ?_, ?_, ?_⟩
  · intro e he
    simp [recuperar_documentos, recuperar_documentos_multiquery, he]
  · intro e he
    simp [recuperar_documentos_multiquery, he]
  · intro e he
    simp [recuperar_documentos_hibrido, he]
  · intro sem hs e he
    simp [recuperar_documentos_hibrido, hs, he]
  · intro e he
    simp [recuperar_documentos_v1, he]

/-- Witness for C2 (amended): each failure branch at concrete failing
oracles. -/
theorem retrieval_failure_policy_amended_witness :
    recuperar_documentos (fun _ => Except.error "x1") (fun _ => Except.error "x2")
        "q" [] = []
    ∧ recuperar_documentos_multiquery (fun _ => Except.error "x2") "q" [] = []
    ∧ recuperar_documentos_hibrido (fun _ => Except.error "x3")
        (fun _ _ => Except.ok []) "q" [] = []
    ∧ recuperar_documentos_hibrido (fun _ => Except.ok [])
        (fun _ _ => Except.error "x4") "q" [] = []
    ∧ recuperar_documentos_v1 (fun _ => Except.error "x5") "q" = [] := by
  refine ⟨?_, ?_, ?_, ?_, ?_⟩
  · exact (retrieval_failure_policy_amended (fun _ => Except.error "x1")
      (fun _ => Except.error "x2") (fun _ => Except.error "x3")
      (fun _ _ => Except.ok []) "q" []).2.1 "x2" rfl
  · exact (retrieval_failure_policy_amended (fun _ => Except.error "x1")
      (fun _ => Except.error "x2") (fun _ => Except.error "x3")
      (fun _ _ => Except.ok []) "q" []).2.2.1 "x2" rfl
  · exact (retrieval_failure_policy_amended (fun _ => Except.error "x1")
      (fun _ => Except.error "x2") (fun _ => Except.error "x3")
      (fun _ _ => Except.ok []) "q" []).2.2.2.1 "x3" rfl
  · exact (retrieval_failure_policy_amended (fun _ => Except.error "x1")
      (fun _ => Except.error "x2") (fun _ => Except.ok [])
      (fun _ _ => Except.error "x4") "q" []).2.2.2.2.1 [] rfl "x4" rfl
  · exact (retrieval_failure_policy_amended (fun _ => Except.error "x1")
      (fun _ => Except.error "x2") (fun _ => Except.error "x5")
      (fun _ _ => Except.ok []) "q" []).2.2.2.2.2 "x5" rfl

/-- Counterexample for C2 as stated: the reformulation provider call fails,
yet the orchestrator does not return the empty sequence — it falls back to
the original question and returns what retrieval found. -/
theorem reformulation_failure_nonempty_counterexample :
    recuperar_documentos (fun _ => Except.error "proveedor caido")
        (fun _ => Except.ok [⟨"doc", []⟩]) "q" [] = [⟨"doc", []⟩]
    ∧ reformular_pregunta (fun _ => Except.error "proveedor caido") [] "q" = "q"
    ∧ ([(⟨"doc", []⟩ : Document)] : List Document) ≠ [] := by
  refine ⟨by decide, by decide, by decide⟩

/-- C6 (corrected, amended part): the hybrid strategy joins the last-3
history contents and the query with single spaces and strips the combined
string of leading/trailing whitespace; it issues the similarity retrieval
and the `k = 5` search against that same enriched string and, when both
succeed, returns the deduplicated concatenation of the two result lists. -/
theorem hibrido_enriched_query_amended (ret : RetrieverOracle)
    (dbs : SearchOracle) (q : String) (h : List ChatMessage) :
    consulta_enriquecida q h = pyStrip (historialCompleto h ++ " " ++ q)
    ∧ historialCompleto h
      = (if h.isEmpty then ""
         else String.intercalate " " ((lastN 3 h).map (·.content)))
    ∧ (∀ sem, ret (consulta_enriquecida q h) = Except.ok sem →
        ∀ text, dbs (consulta_enriquecida q h) 5 = Except.ok text →
          recuperar_documentos_hibrido ret dbs q h = dedupe (sem ++ text)) := by
  refine ⟨rfl, rfl, ?_⟩
  intro sem hs text ht
  simp [recuperar_documentos_hibrido, hs, ht]

/-- Witness for C6 (amended): concrete succeeding oracles; the result is
the dedup of the concatenated result lists. -/
theorem hibrido_enriched_query_amended_witness :
    recuperar_documentos_hibrido (fun _ => Except.ok [⟨"a", []⟩])
        (fun _ _ => Except.ok [⟨"a", []⟩, ⟨"b", []⟩]) "q" []
      = dedupe (([⟨"a", []⟩] : List Document) ++ [⟨"a", []⟩, ⟨"b", []⟩]) :=
  (hibrido_enriched_query_amended (fun _ => Except.ok [⟨"a", []⟩])
    (fun _ _ => Except.ok [⟨"a", []⟩, ⟨"b", []⟩]) "q" []).2.2
    [⟨"a", []⟩] rfl [⟨"a", []⟩, ⟨"b", []⟩] rfl

/-- Counterexample for C6 as stated: with empty history the spec formula
leaves the query untouched, but the code strips it — the retrievals receive
`"q"`, not `" q"`. -/
theorem hibrido_strip_counterexample :
    consulta_enriquecida " q" [] ≠ enrichedQuerySpec " q" []
    ∧ recuperar_documentos_hibrido (fun s => Except.ok [⟨s, []⟩])
        (fun _ _ => Except.ok []) " q" [] = [⟨"q", []⟩]
    ∧ ("q" : String) ≠ " q" := by
  refine ⟨by decide, by decide, by decide⟩

/-! ### C9: history is read-only, but the read is not a bounded suffix -/

theorem lastN_eq_nil_iff {α : Type} (l : List α) : lastN 3 l = [] ↔ l = [] := by
  unfold lastN
  rw [List.drop_eq_nil_iff]
  constructor
  · intro hlen
    rw [← List.length_eq_zero]
    omega
  · intro h
    subst h
    simp

theorem historialCompleto_lastN (h1 h2 : List ChatMessage)
    (hl : lastN 3 h1 = lastN 3 h2) : historialCompleto h1 = historialCompleto h2 := by
  by_cases he : h1 = []
  · have h2e : h2 = [] := by
      apply (lastN_eq_nil_iff h2).mp
      rw [← hl, he]
      rfl
    rw [he, h2e]
  · have h2ne : h2 ≠ [] := by
      intro hc
      apply he
      apply (lastN_eq_nil_iff h1).mp
      rw [hl, hc]
      rfl
    simp [historialCompleto, List.isEmpty_iff, he, h2ne, hl]

/-- C9 (corrected, amended part): no pipeline operation mutates the
caller-owned history (the state-passing forms return it unchanged);
reformulation, hybrid retrieval and the orchestrator depend only on the
last-3 suffix of history.  `consultar_llm` reads the whole history — see
the counterexample. -/
theorem history_read_only_amended (llm : LLMOracle) (mq ret : RetrieverOracle)
    (dbs : SearchOracle) (docs : List Document) (q : String)
    (h h1 h2 : List ChatMessage) :
    (reformular_pregunta_st llm h q).2 = h
    ∧ (recuperar_documentos_hibrido_st ret dbs q h).2 = h
    ∧ (recuperar_documentos_st llm mq q h).2 = h
    ∧ (consultar_llm_st llm docs q h).2 = h
    ∧ (lastN 3 h1 = lastN 3 h2 →
        reformular_pregunta llm h1 q = reformular_pregunta llm h2 q)
    ∧ (lastN 3 h1 = lastN 3 h2 →
        recuperar_documentos_hibrido ret dbs q h1
          = recuperar_documentos_hibrido ret dbs q h2)
    ∧ (lastN 3 h1 = lastN 3 h2 →
        recuperar_documentos llm mq q h1 = recuperar_documentos llm mq q h2) := by
  refine ⟨rfl, rfl, rfl, rfl, ?_, ?_, ?_⟩
  · intro hl
    simp [reformular_pregunta, reformMessages, hl]
  · intro hl
    simp [recuperar_documentos_hibrido, consulta_enriquecida,
      historialCompleto_lastN h1 h2 hl]
  · intro hl
    simp [recuperar_documentos, recuperar_documentos_multiquery,
      reformular_pregunta, reformMessages, hl]

/-- Witness for C9 (amended): concrete oracles and histories; the last-3
suffix hypotheses hold by computation. -/
theorem history_read_only_amended_witness :
    (reformular_pregunta_st (fun _ => Except.ok "r") [⟨"user", "a"⟩] "q").2
        = [⟨"user", "a"⟩]
    ∧ reformular_pregunta (fun _ => Except.ok "r") [⟨"user", "a"⟩] "q"
        = reformular_pregunta (fun _ => Except.ok "r") [⟨"user", "a"⟩] "q"
    ∧ recuperar_documentos (fun _ => Except.ok "r") (fun _ => Except.ok [])
        "q" [⟨"user", "a"⟩]
        = recuperar_documentos (fun _ => Except.ok "r") (fun _ => Except.ok [])
            "q" [⟨"user", "a"⟩] := by
  have h := history_read_only_amended (fun _ => Except.ok "r")
    (fun _ => Except.ok []) (fun _ => Except.ok []) (fun _ _ => Except.ok [])
    [] "q" [⟨"user", "a"⟩] [⟨"user", "a"⟩] [⟨"user", "a"⟩]
  exact ⟨h.1, h.2.2.2.2.1 rfl, h.2.2.2.2.2.2 rfl⟩

/-- Oracle that answers with the content of the second message it is sent;
it distinguishes calls by the earliest history turn. -/
def peekSecond : LLMOracle := fun msgs =>
  match msgs with
  | _ :: Message.human c :: _ => Except.ok c
  | _ => Except.ok ""

theorem historyToMessages_replicate_user (n : Nat) (c : String) :
    historyToMessages (List.replicate n ⟨"user", c⟩)
      = List.replicate n (Message.human c) := by
  induction n with
  | zero => rfl
  | succ k ih => simp [List.replicate_succ, historyToMessages, ih]

/-- Counterexample for C9 as stated: no bound `N` makes `consultar_llm`
depend only on the last `N` history turns — histories agreeing on any
suffix but differing in an older turn give different provider calls and,
with this oracle, different answers. -/
theorem consultar_llm_unbounded_history_counterexample :
    ¬ ∃ N : Nat, ∀ h1 h2 : List ChatMessage,
        lastN N h1 = lastN N h2 →
        consultar_llm peekSecond [] "q" h1 = consultar_llm peekSecond [] "q" h2 := by
  rintro ⟨N, hN⟩
  have hsuffix : lastN N (List.replicate (N + 1) (⟨"user", "A"⟩ : ChatMessage))
      = lastN N ((⟨"user", "B"⟩ : ChatMessage) :: List.replicate N ⟨"user", "A"⟩) := by
    unfold lastN
    have hlen1 : (List.replicate (N + 1) (⟨"user", "A"⟩ : ChatMessage)).length = N + 1 := by
      simp
    have hlen2 : ((⟨"user", "B"⟩ : ChatMessage) :: List.replicate N ⟨"user", "A"⟩).length
        = N + 1 := by simp
    rw [hlen1, hlen2]
    have h1 : N + 1 - N = 1 := by omega
    rw [h1]
    rw [List.replicate_succ]
    rfl
  have heq := hN _ _ hsuffix
  have hA : consultar_llm peekSecond [] "q" (List.replicate (N + 1) ⟨"user", "A"⟩)
      = "A" := by
    rw [consultar_llm, buildMessages, historyToMessages_replicate_user,
      List.replicate_succ]
    rfl
  have hB : consultar_llm peekSecond [] "q"
      ((⟨"user", "B"⟩ : ChatMessage) :: List.replicate N ⟨"user", "A"⟩) = "B" := by
    rw [consultar_llm, buildMessages]
    rw [show historyToMessages ((⟨"user", "B"⟩ : ChatMessage)
        :: List.replicate N ⟨"user", "A"⟩)
      = Message.human "B" :: List.replicate N (Message.human "A") by
        simp [historyToMessages, historyToMessages_replicate_user]]
    rfl
  rw [hA, hB] at heq
  exact absurd heq (by decide)

/-- C10 (confirmed): in the executed module the name `recuperar_documentos`
resolves to the later two-parameter definition, shadowing the one-parameter
one; calling it with a single question argument, as both HTTP endpoints of
`main.py` do, is a `TypeError`, not a retrieval. -/
theorem recuperar_documentos_shadowing (llm : LLMOracle)
    (ret mq : RetrieverOracle) (dbs : SearchOracle) (q : String) :
    resolve (coreModuleBindings llm ret mq dbs) "recuperar_documentos"
      = some (PyValue.fun2 (recuperar_documentos llm mq))
    ∧ callWithOneStringArg (PyValue.fun2 (recuperar_documentos llm mq)) q
      = Except.error "TypeError: missing required positional argument" :=
  ⟨rfl, rfl⟩
